import Mathlib

namespace MedRec

/-!
Verification of the medication-intake submission gateway
(`src/api/submit.js`) against its natural-language specification.

The JavaScript source is shallowly embedded: JS strings become `List Char`,
JSON-like request bodies become the inductive type `Jv`, the in-memory
rate-limit `Map` becomes a function from keys to timestamp lists, machine
integers become `Int` with explicit 32-bit wrapping where the source relies
on it, and the single asynchronous mail-transport call becomes an explicit
`Except` parameter of the handler.
-/

/-- JS strings are modelled as lists of characters. -/
abbrev Str := List Char

/-! ## String helpers -/

/-- One global replacement of the single character `c` by the string `r`:
the semantics of JS `s.replace(/c/g, r)` for a one-character pattern. -/
def replaceChar (c : Char) (r : Str) : Str → Str
  | [] => []
  | x :: xs => (if x = c then r else [x]) ++ replaceChar c r xs

/-- Embedding of `escapeHtml` (src/api/submit.js lines 103-115): six sequential global
replacements, ampersand first.  The source's guard for `null`/`undefined`
input (returning the empty string) and the `String(text)` coercion are
outside this embedding because the only caller, `sanitizeObject`, always
passes an actual string. -/
def escapeHtml (s : Str) : Str :=
  replaceChar '/' "&#x2F;".toList
    (replaceChar '\x27' "&#x27;".toList
      (replaceChar '"' "&quot;".toList
        (replaceChar '>' "&gt;".toList
          (replaceChar '<' "&lt;".toList
            (replaceChar '&' "&amp;".toList s)))))

/-- The six characters the sanitizer encodes: `& < > " ' /`. -/
def specialChars : List Char := ['&', '<', '>', '"', '\x27', '/']

/-- Charwise HTML-entity encoder, from the spec's words: each of the six
special characters becomes its entity, every other character is kept. -/
def encodeChar (c : Char) : Str :=
  if c = '&' then "&amp;".toList
  else if c = '<' then "&lt;".toList
  else if c = '>' then "&gt;".toList
  else if c = '"' then "&quot;".toList
  else if c = '\x27' then "&#x27;".toList
  else if c = '/' then "&#x2F;".toList
  else [c]

/-- Encode a whole string one character at a time (spec-side encoder:
"each character encoded exactly once"). -/
def encodeStr (s : Str) : Str := s.flatMap encodeChar

/-! ## JSON-like values and the sanitizer -/

/-- JSON-like values of a request body: strings, numbers, booleans, null,
arrays and (insertion-ordered) objects. -/
inductive Jv where
  | str (s : Str)
  | num (n : Int)
  | bool (b : Bool)
  | null
  | arr (xs : List Jv)
  | obj (fs : List (Str × Jv))

/-- Embedding of `sanitizeObject` (src/api/submit.js lines 120-137): escape strings,
recurse into arrays, rebuild objects escaping every key, return any other
value unchanged. -/
def sanitizeObject : Jv → Jv
  | .str s => .str (escapeHtml s)
  | .arr xs => .arr (xs.attach.map (fun x => sanitizeObject x.1))
  | .obj fs => .obj (fs.attach.map (fun p => (escapeHtml p.1.1, sanitizeObject p.1.2)))
  | v => v
decreasing_by
  · have := List.sizeOf_lt_of_mem x.2
    simp only [Jv.arr.sizeOf_spec]
    omega
  · have h1 := List.sizeOf_lt_of_mem p.2
    have h2 : sizeOf p.1.2 < sizeOf p.1 := by
      obtain ⟨q, hq⟩ := p
      cases q with
      | mk a b => simp
    simp only [Jv.obj.sizeOf_spec]
    omega

/-- Spec-side description of one sanitization pass: the output is
structurally isomorphic to the input, every string leaf and every object
key is charwise entity-encoded (exactly the six special characters), and
every non-string scalar is unchanged. -/
inductive SanRel : Jv → Jv → Prop where
  | str (s : Str) : SanRel (.str s) (.str (encodeStr s))
  | num (n : Int) : SanRel (.num n) (.num n)
  | bool (b : Bool) : SanRel (.bool b) (.bool b)
  | null : SanRel .null .null
  | arr {xs ys : List Jv} : List.Forall₂ SanRel xs ys → SanRel (.arr xs) (.arr ys)
  | obj {fs gs : List (Str × Jv)}
      (hk : gs.map Prod.fst = fs.map (fun p => encodeStr p.1))
      (hv : List.Forall₂ SanRel (fs.map Prod.snd) (gs.map Prod.snd)) :
      SanRel (.obj fs) (.obj gs)

/-- A string containing none of the six special characters. -/
def strClean (s : Str) : Bool := s.all (fun c => !(decide (c ∈ specialChars)))

/-- A value none of whose string leaves or object keys contains any of the
six special characters. -/
inductive NoSpecial : Jv → Prop where
  | str {s : Str} : strClean s = true → NoSpecial (.str s)
  | num (n : Int) : NoSpecial (.num n)
  | bool (b : Bool) : NoSpecial (.bool b)
  | null : NoSpecial .null
  | arr {xs : List Jv} : (∀ x ∈ xs, NoSpecial x) → NoSpecial (.arr xs)
  | obj {fs : List (Str × Jv)} (hk : ∀ p ∈ fs, strClean p.1 = true)
      (hv : ∀ p ∈ fs, NoSpecial p.2) : NoSpecial (.obj fs)

/-! ## Identifier hasher and rate limiter -/

/-- JS `ToInt32` wrap: reduce an integer to the range `[-2^31, 2^31)`. -/
def toInt32 (n : Int) : Int := (n + 2 ^ 31) % 2 ^ 32 - 2 ^ 31

/-- One step of `hashIp` (src/api/submit.js lines 53-61):
`hash = ((hash << 5) - hash) + char` followed by `hash = hash & hash`,
each 32-bit operation wrapping as in JS. -/
def hashIpStep (hash : Int) (c : Char) : Int :=
  toInt32 (toInt32 (hash * 32) - hash + c.toNat)

/-- Hexadecimal digit for a value below 16 (as in JS `toString(16)`). -/
def hexDigit (n : Nat) : Char :=
  if n < 10 then Char.ofNat (48 + n) else Char.ofNat (87 + n)

/-- Big-endian base-16 digits of `n`.  The first argument is structural
fuel (any fuel above `n` yields the exact digit string), so that the
function reduces inside the kernel. -/
def natToHexAux : Nat → Nat → Str
  | 0, _ => []
  | fuel + 1, n =>
      if n < 16 then [hexDigit n]
      else natToHexAux fuel (n / 16) ++ [hexDigit (n % 16)]

/-- JS `n.toString(16)` for a 32-bit integer: minus sign then the hex
digits of the absolute value. -/
def natToHex (n : Nat) : Str := natToHexAux (n + 1) n

/-- Embedding of `hashIp` (src/api/submit.js lines 53-61): fold the 32-bit hash over the
characters and render it in base 16. -/
def hashIp (ip : Str) : Str :=
  let h := ip.foldl hashIpStep 0
  if h < 0 then '-' :: natToHex (-h).toNat else natToHex h.toNat

/-- The rate-limit store (`rateLimitStore`): hashed identifier to ordered
list of request timestamps; a missing key reads as the empty list. -/
def Store := Str → List Int

def emptyStore : Store := fun _ => []

/-- Result record of `checkRateLimit`. -/
structure RLResult where
  allowed : Bool
  remaining : Int
  resetAt : Int

/-- Environment-derived configuration (src/api/submit.js lines 25-41). -/
structure RLConfig where
  maxPerWindow : Nat
  windowMs : Int
  allowedOrigins : List Str
  emailRecipient : Str

/-- The default `CONFIG` values of the source. -/
def CONFIG : RLConfig where
  maxPerWindow := 5
  windowMs := 3600000
  allowedOrigins := ["https://*.vercel.app".toList, "http://localhost:3000".toList]
  emailRecipient := "heyitsmeastra@gmail.com".toList

/-- Embedding of `checkRateLimit` (src/api/submit.js lines 67-92): filter the stored
timestamps to the sliding window; if already at the limit answer
not-allowed with `resetAt` read from the oldest valid entry, otherwise
append `now`, persist, and answer allowed.  (`validEntries[0]` on an empty
list is JS `undefined`; `headD 0` stands in for it — the branch is only
reachable with an empty list when `maxPerWindow = 0`.) -/
def checkRateLimit (cfg : RLConfig) (store : Store) (ip : Str) (now : Int) :
    RLResult × Store :=
  let hashedIp := hashIp ip
  let windowStart := now - cfg.windowMs
  let entries := store hashedIp
  let validEntries := entries.filter (fun t => windowStart < t)
  if cfg.maxPerWindow ≤ validEntries.length then
    ({ allowed := false, remaining := 0,
       resetAt := validEntries.headD 0 + cfg.windowMs }, store)
  else
    let updated := validEntries ++ [now]
    ({ allowed := true,
       remaining := (cfg.maxPerWindow : Int) - updated.length - 1,
       resetAt := now + cfg.windowMs },
     fun k => if k = hashedIp then updated else store k)

/-- Run a sequence of rate-limit checks for one identifier, threading the
store, returning the results in order together with the final store. -/
def runChecks (cfg : RLConfig) (ip : Str) : Store → List Int → List RLResult × Store
  | st, [] => ([], st)
  | st, t :: ts =>
      let r := checkRateLimit cfg st ip t
      let rest := runChecks cfg ip r.2 ts
      (r.1 :: rest.1, rest.2)

/-- Default value used by `List.getD` over rate-limit results. -/
def noRes : RLResult := { allowed := false, remaining := 0, resetAt := 0 }

/-! ## Origin validation -/

/-- Regex pattern tokens arising from an allow-list entry after the
source's `allowed.replace(/\*/g, '.*')`: the wildcard, the unescaped `.`
metacharacter (any single character), and literal characters.  Entries are
assumed free of other regex metacharacters, as the default configuration's
are. -/
inductive Tok where
  | lit (c : Char)
  | dot
  | star

/-- Tokenize an allow-list entry into its regex. -/
def patternToks (a : Str) : List Tok :=
  a.map (fun c => if c = '*' then Tok.star else if c = '.' then Tok.dot else Tok.lit c)

/-- Match a token list against some prefix of `s` (the rest of `s` is
unconstrained, as in an unanchored JS regex).  The first argument is
structural fuel so the function reduces in the kernel;
`toks.length + s.length + 1` always suffices because every recursive call
shrinks `toks.length + s.length`. -/
def matchToks : Nat → List Tok → Str → Bool
  | 0, _, _ => false
  | _ + 1, [], _ => true
  | fuel + 1, Tok.lit c :: ts, x :: xs => c == x && matchToks fuel ts xs
  | fuel + 1, Tok.dot :: ts, _ :: xs => matchToks fuel ts xs
  | fuel + 1, Tok.star :: ts, s =>
      matchToks fuel ts s ||
        (match s with
         | [] => false
         | _ :: xs => matchToks fuel (Tok.star :: ts) xs)
  | _ + 1, _, [] => false

/-- JS `regex.test(origin)`: search for a match at every start position. -/
def regexTest (toks : List Tok) : Str → Bool
  | [] => matchToks (toks.length + 1) toks []
  | s@(_ :: xs) => matchToks (toks.length + s.length + 1) toks s || regexTest toks xs

/-- Embedding of `isAllowedOrigin` (src/api/submit.js lines 347-356): a missing or empty
origin is rejected; an entry containing `*` is matched as an unanchored
regex with `*` expanded to `.*`; any other entry must be equal. -/
def isAllowedOrigin (origin : Option Str) (allowedOrigins : List Str) : Bool :=
  match origin with
  | none => false
  | some o =>
      if o = [] then false
      else allowedOrigins.any (fun allowed =>
        if allowed.contains '*' then regexTest (patternToks allowed) o
        else allowed == o)

/-- Modelled from the spec: wildcard matching as the spec words it — the
single `*` replaced by some non-empty character sequence, the rest of the
entry matched literally and anchored at both ends. -/
def specWildcardMatch (pattern origin : Str) : Bool :=
  let pre := pattern.takeWhile (fun c => !(c == '*'))
  let suf := (pattern.dropWhile (fun c => !(c == '*'))).drop 1
  pre.isPrefixOf origin && suf.isSuffixOf origin &&
    decide (pre.length + suf.length < origin.length)

/-- Modelled from the spec: the whole origin check with spec-side wildcard
matching. -/
def specOriginAllowed (origin : Option Str) (allowedOrigins : List Str) : Bool :=
  match origin with
  | none => false
  | some o =>
      if o = [] then false
      else allowedOrigins.any (fun allowed =>
        if allowed.contains '*' then specWildcardMatch allowed o
        else allowed == o)

/-! ## JS value coercions and field validation -/

/-- Decimal digits of `n`; first argument is structural fuel (`n + 1`
always suffices). -/
def natToDecAux : Nat → Nat → Str
  | 0, _ => []
  | fuel + 1, n =>
      if n < 10 then [Char.ofNat (48 + n)]
      else natToDecAux fuel (n / 10) ++ [Char.ofNat (48 + n % 10)]

/-- JS `String(n)` for a natural number. -/
def natToDec (n : Nat) : Str := natToDecAux (n + 1) n

/-- JS `String(n)` for an integer. -/
def intToStr (n : Int) : Str :=
  if n < 0 then '-' :: natToDec (-n).toNat else natToDec n.toNat

/-- JS truthiness of a JSON-like value (`NaN` has no counterpart here). -/
def jvTruthy : Jv → Bool
  | .null => false
  | .bool b => b
  | .num n => n != 0
  | .str s => !s.isEmpty
  | .arr _ => true
  | .obj _ => true

/-- JS `String(v)` for a JSON-like value.  Arrays stringify as their
elements joined by commas with `null` elements rendered empty; objects
stringify to `[object Object]`. -/
def jvToStr : Jv → Str
  | .str s => s
  | .num n => intToStr n
  | .bool b => if b then "true".toList else "false".toList
  | .null => "null".toList
  | .arr xs =>
      List.intercalate ",".toList
        (xs.attach.map (fun x =>
          match x.1 with
          | .null => []
          | _ => jvToStr x.1))
  | .obj _ => "[object Object]".toList
decreasing_by
  have := List.sizeOf_lt_of_mem x.2
  simp only [Jv.arr.sizeOf_spec]
  omega

/-- The whitespace characters JS `trim` removes (ASCII subset). -/
def isJsSpace (c : Char) : Bool :=
  c = ' ' || c = '\t' || c = '\n' || c = '\r' || c = '\x0b' || c = '\x0c'

/-- JS `s.trim()`. -/
def trimStr (s : Str) : Str :=
  ((s.dropWhile isJsSpace).reverse.dropWhile isJsSpace).reverse

/-- JS property read `fs[k]` on a parsed JSON object. -/
def assocGet (fs : List (Str × Jv)) (k : Str) : Option Jv :=
  (fs.find? (fun p => p.1 == k)).map Prod.snd

/-- The test applied by `validateRequiredFields` to one field:
`!data[field] || String(data[field]).trim() === ''`. -/
def fieldMissing (data : List (Str × Jv)) (f : Str) : Bool :=
  match assocGet data f with
  | none => true
  | some v => !(jvTruthy v) || trimStr (jvToStr v) == []

/-- Embedding of `validateRequiredFields` (src/api/submit.js lines 142-150): collect, in
order, the required fields that are absent, falsy or blank. -/
def validateRequiredFields (data : List (Str × Jv)) : List Str → List Str
  | [] => []
  | f :: rest =>
      if fieldMissing data f then f :: validateRequiredFields data rest
      else validateRequiredFields data rest

/-- The handler's required-field list (src/api/submit.js line 438). -/
def requiredFields : List Str :=
  ["patientName".toList, "dateOfBirth".toList, "homePharmacy".toList, "allergies".toList]

/-! ## Message renderer -/

/-- One medication record as the renderer reads it. -/
structure Med where
  name : Option Str
  dosage : Option Str
  frequency : Option Str

/-- The fixed field set the renderer walks (the spec's sanitized
submission shape; each field read with JS `||` defaulting). -/
structure RenderData where
  patientId : Option Str
  patientName : Option Str
  dateOfBirth : Option Str
  patientPhone : Option Str
  homePharmacy : Option Str
  pharmacyAddress : Option Str
  pharmacyPhone : Option Str
  pharmacyFax : Option Str
  medications : Option (List Med)
  allergies : Option Str
  additionalNotes : Option Str

/-- JS `v || dflt` for an optional string value (absent or empty
falls back to the default). -/
def orElseStr (o : Option Str) (dflt : Str) : Str :=
  match o with
  | some s => if s = [] then dflt else s
  | none => dflt

def NA : Str := "N/A".toList

def noneReported : Str := "None reported".toList

def noneTxt : Str := "None".toList

def noMedsLine : Str := "No medications reported".toList

/-- Rendering of `data.medications ? data.medications.length : 0`. -/
def medsCountStr (o : Option (List Med)) : Str :=
  match o with
  | some ms => natToDec ms.length
  | none => natToDec 0

def medHtmlC0 : Str := "\n      <div class=\"field\">\n        <div class=\"field-label\">Medication ".toList

def medHtmlC1 : Str := "</div>\n        <div class=\"field-value\">\n          <strong>".toList

def medHtmlC2 : Str := "</strong><br>\n          Dosage: ".toList

def medHtmlC3 : Str := "<br>\n          Frequency: ".toList

def medHtmlC4 : Str := "\n        </div>\n      </div>\n    ".toList

def noMedsHtmlPre : Str := "<div class=\"field\"><div class=\"field-label\">Medications</div><div class=\"field-value\">".toList

def noMedsHtmlPost : Str := "</div></div>".toList

/-- The markup medication blocks, one per entry, index labels from 1
(the source maps from index 0 and prints `i + 1`), joined by `''`. -/
def medsHtmlList : Nat → List Med → Str
  | _, [] => []
  | i, m :: rest =>
      medHtmlC0 ++ natToDec (i + 1) ++ medHtmlC1 ++ orElseStr m.name NA ++ medHtmlC2 ++
        orElseStr m.dosage NA ++ medHtmlC3 ++ orElseStr m.frequency NA ++ medHtmlC4 ++
        medsHtmlList (i + 1) rest

/-- The `medicationsList` value of `generateEmailHtml`. -/
def medicationsListHtml (o : Option (List Med)) : Str :=
  match o with
  | some [] => noMedsHtmlPre ++ noMedsLine ++ noMedsHtmlPost
  | some ms => medsHtmlList 0 ms
  | none => noMedsHtmlPre ++ noMedsLine ++ noMedsHtmlPost

def medTextC0 : Str := "".toList

def medTextC1 : Str := ". ".toList

def medTextC2 : Str := " - Dosage: ".toList

def medTextC3 : Str := " - Frequency: ".toList

def medTextC4 : Str := "".toList

/-- The plain-text medication lines, joined by newlines. -/
def medsTextList : Nat → List Med → Str
  | _, [] => []
  | i, [m] =>
      medTextC0 ++ natToDec (i + 1) ++ medTextC1 ++ orElseStr m.name NA ++ medTextC2 ++
        orElseStr m.dosage NA ++ medTextC3 ++ orElseStr m.frequency NA ++ medTextC4
  | i, m :: rest =>
      medTextC0 ++ natToDec (i + 1) ++ medTextC1 ++ orElseStr m.name NA ++ medTextC2 ++
        orElseStr m.dosage NA ++ medTextC3 ++ orElseStr m.frequency NA ++ medTextC4 ++
        ['\n'] ++ medsTextList (i + 1) rest

/-- The `medicationsList` value of `generateEmailText`. -/
def medicationsListText (o : Option (List Med)) : Str :=
  match o with
  | some [] => noMedsLine
  | some ms => medsTextList 0 ms
  | none => noMedsLine

def htmlC0 : Str := "\n<!DOCTYPE html>\n<html>\n<head>\n  <meta charset=\"UTF-8\">\n  <title>Medication Intake Submission</title>\n  <style>\n    body \x7b font-family: Arial, sans-serif; line-height: 1.6; color: #333; max-width: 600px; margin: 0 auto; padding: 20px; \x7d\n    .header \x7b background: #003366; color: white; padding: 20px; text-align: center; border-radius: 5px 5px 0 0; \x7d\n    .content \x7b background: #f9f9f9; padding: 20px; border: 1px solid #ddd; border-radius: 0 0 5px 5px; \x7d\n    .field \x7b margin-bottom: 15px; padding: 10px; background: white; border-left: 4px solid #003366; \x7d\n    .field-label \x7b font-weight: bold; color: #003366; text-transform: uppercase; font-size: 12px; \x7d\n    .field-value \x7b margin-top: 5px; font-size: 14px; \x7d\n    .section-title \x7b color: #003366; border-bottom: 2px solid #003366; padding-bottom: 5px; margin-top: 20px; \x7d\n    .footer \x7b margin-top: 20px; font-size: 12px; color: #666; text-align: center; \x7d\n    .timestamp \x7b background: #e8f4f8; padding: 10px; border-radius: 5px; margin-bottom: 20px; \x7d\n  </style>\n</head>\n<body>\n  <div class=\"header\">\n    <h1>🏥 Home Medication Intake</h1>\n    <p>Select Medical - SRH Frisco Pharmacy</p>\n  </div>\n  \n  <div class=\"content\">\n    <div class=\"timestamp\">\n      <strong>Submission Time:</strong> ".toList

def htmlC1 : Str := "\n    </div>\n    \n    <h2 class=\"section-title\">Patient Information</h2>\n    \n    <div class=\"field\">\n      <div class=\"field-label\">Patient ID</div>\n      <div class=\"field-value\">".toList

def htmlC2 : Str := "</div>\n    </div>\n    \n    <div class=\"field\">\n      <div class=\"field-label\">Patient Name</div>\n      <div class=\"field-value\">".toList

def htmlC3 : Str := "</div>\n    </div>\n    \n    <div class=\"field\">\n      <div class=\"field-label\">Date of Birth</div>\n      <div class=\"field-value\">".toList

def htmlC4 : Str := "</div>\n    </div>\n    \n    <div class=\"field\">\n      <div class=\"field-label\">Patient Phone</div>\n      <div class=\"field-value\">".toList

def htmlC5 : Str := "</div>\n    </div>\n    \n    <h2 class=\"section-title\">Home Pharmacy</h2>\n    \n    <div class=\"field\">\n      <div class=\"field-label\">Pharmacy Name</div>\n      <div class=\"field-value\">".toList

def htmlC6 : Str := "</div>\n    </div>\n    \n    <div class=\"field\">\n      <div class=\"field-label\">Pharmacy Address</div>\n      <div class=\"field-value\">".toList

def htmlC7 : Str := "</div>\n    </div>\n    \n    <div class=\"field\">\n      <div class=\"field-label\">Pharmacy Phone</div>\n      <div class=\"field-value\">".toList

def htmlC8 : Str := "</div>\n    </div>\n    \n    <div class=\"field\">\n      <div class=\"field-label\">Pharmacy Fax</div>\n      <div class=\"field-value\">".toList

def htmlC9 : Str := "</div>\n    </div>\n    \n    <h2 class=\"section-title\">Home Medications (".toList

def htmlC10 : Str := ")</h2>\n    \n    ".toList

def htmlC11 : Str := "\n    \n    <h2 class=\"section-title\">Additional Information</h2>\n    \n    <div class=\"field\">\n      <div class=\"field-label\">Known Allergies</div>\n      <div class=\"field-value\">".toList

def htmlC12 : Str := "</div>\n    </div>\n    \n    <div class=\"field\">\n      <div class=\"field-label\">Additional Notes</div>\n      <div class=\"field-value\">".toList

def htmlC13 : Str := "</div>\n    </div>\n  </div>\n  \n  <div class=\"footer\">\n    <p>This is an automated message from the Secure Medication Intake System.</p>\n    <p>Confidentiality Notice: This email contains Protected Health Information (PHI).</p>\n  </div>\n</body>\n</html>".toList

def textC0 : Str := "HOME MEDICATION INTAKE FORM\nSelect Medical - SRH Frisco Pharmacy\n================================\n\nSubmission Time: ".toList

def textC1 : Str := "\n\nPATIENT INFORMATION\n-------------------\nPatient ID: ".toList

def textC2 : Str := "\nPatient Name: ".toList

def textC3 : Str := "\nDate of Birth: ".toList

def textC4 : Str := "\nPatient Phone: ".toList

def textC5 : Str := "\n\nHOME PHARMACY\n-------------\nPharmacy Name: ".toList

def textC6 : Str := "\nPharmacy Address: ".toList

def textC7 : Str := "\nPharmacy Phone: ".toList

def textC8 : Str := "\nPharmacy Fax: ".toList

def textC9 : Str := "\n\nHOME MEDICATIONS (".toList

def textC10 : Str := ")\n----------------\n".toList

def textC11 : Str := "\n\nADDITIONAL INFORMATION\n----------------------\nKnown Allergies: ".toList

def textC12 : Str := "\nAdditional Notes: ".toList

def textC13 : Str := "\n\n---\nThis is an automated message from the Secure Medication Intake System.\nConfidentiality Notice: This email contains Protected Health Information (PHI).".toList

/-- Embedding of `generateEmailHtml` (src/api/submit.js lines 168-281), with the
request timestamp passed explicitly. -/
def generateEmailHtml (ts : Str) (d : RenderData) : Str :=
  htmlC0 ++ ts ++ htmlC1 ++
    orElseStr d.patientId NA ++ htmlC2 ++
    orElseStr d.patientName NA ++ htmlC3 ++
    orElseStr d.dateOfBirth NA ++ htmlC4 ++
    orElseStr d.patientPhone NA ++ htmlC5 ++
    orElseStr d.homePharmacy NA ++ htmlC6 ++
    orElseStr d.pharmacyAddress NA ++ htmlC7 ++
    orElseStr d.pharmacyPhone NA ++ htmlC8 ++
    orElseStr d.pharmacyFax NA ++ htmlC9 ++
    medsCountStr d.medications ++ htmlC10 ++
    medicationsListHtml d.medications ++ htmlC11 ++
    orElseStr d.allergies noneReported ++ htmlC12 ++
    orElseStr d.additionalNotes noneTxt ++ htmlC13

/-- Embedding of `generateEmailText` (src/api/submit.js lines 286-328), with the
request timestamp passed explicitly. -/
def generateEmailText (ts : Str) (d : RenderData) : Str :=
  textC0 ++ ts ++ textC1 ++
    orElseStr d.patientId NA ++ textC2 ++
    orElseStr d.patientName NA ++ textC3 ++
    orElseStr d.dateOfBirth NA ++ textC4 ++
    orElseStr d.patientPhone NA ++ textC5 ++
    orElseStr d.homePharmacy NA ++ textC6 ++
    orElseStr d.pharmacyAddress NA ++ textC7 ++
    orElseStr d.pharmacyPhone NA ++ textC8 ++
    orElseStr d.pharmacyFax NA ++ textC9 ++
    medsCountStr d.medications ++ textC10 ++
    medicationsListText d.medications ++ textC11 ++
    orElseStr d.allergies noneReported ++ textC12 ++
    orElseStr d.additionalNotes noneTxt ++ textC13

/-- Interleave separators before values: `glue [v1, v2] [s1, s2]` is
`s1 ++ v1 ++ s2 ++ v2`.  Used to state that a document presents a given
sequence of values in order. -/
def glue : List Str → List Str → Str
  | v :: vs, s :: ss => s ++ v ++ glue vs ss
  | _, _ => []

/-- Predicate: `out` presents exactly the values `vals`, in order: it is some
interleaving of separator text around them. -/
def EmbedsSeq (vals : List Str) (out : Str) : Prop :=
  ∃ seps tail, seps.length = vals.length ∧ glue vals seps ++ tail = out

/-- The informational values of the medication group, flattened in render
order: 1-based index label, then name, dosage and frequency with the `N/A`
placeholder applied. -/
def medVals : Nat → List Med → List Str
  | _, [] => []
  | i, m :: rest =>
      natToDec (i + 1) :: orElseStr m.name NA :: orElseStr m.dosage NA ::
        orElseStr m.frequency NA :: medVals (i + 1) rest

/-- The medication-group values: the flattened entries, or the single
no-entries line. -/
def medGroupVals (o : Option (List Med)) : List Str :=
  match o with
  | some [] => [noMedsLine]
  | some ms => medVals 0 ms
  | none => [noMedsLine]

/-- The full informational value sequence of a rendered message, from the
spec's words: the field values in the fixed order with their placeholders,
the medication count, the medication group, then allergies and notes. -/
def renderVals (ts : Str) (d : RenderData) : List Str :=
  ts :: orElseStr d.patientId NA :: orElseStr d.patientName NA ::
    orElseStr d.dateOfBirth NA :: orElseStr d.patientPhone NA ::
    orElseStr d.homePharmacy NA :: orElseStr d.pharmacyAddress NA ::
    orElseStr d.pharmacyPhone NA :: orElseStr d.pharmacyFax NA ::
    medsCountStr d.medications ::
    (medGroupVals d.medications ++
      [orElseStr d.allergies noneReported, orElseStr d.additionalNotes noneTxt])

/-! ## Submission handler -/

/-- JS `hay.includes(needle)`. -/
def containsSub (needle : Str) : Str → Bool
  | [] => needle.isEmpty
  | hay@(_ :: t) => needle.isPrefixOf hay || containsSub needle t

/-- Embedding of the content-type test, JS `includes` of the JSON type. -/
def contentTypeHasJson (ct : Option Str) : Bool :=
  match ct with
  | none => false
  | some s => containsSub "application/json".toList s

/-- Read a field of the sanitized body as a string, for the renderer. -/
def getStrField (fs : List (Str × Jv)) (k : Str) : Option Str :=
  match assocGet fs k with
  | some (.str s) => some s
  | _ => none

/-- Read one medication record of the sanitized body. -/
def toMed (v : Jv) : Med :=
  match v with
  | .obj g =>
      { name := getStrField g "name".toList, dosage := getStrField g "dosage".toList,
        frequency := getStrField g "frequency".toList }
  | _ => { name := none, dosage := none, frequency := none }

/-- Project the sanitized open-schema body onto the fixed field set the
renderers walk (the spec's SanitizedSubmission shape: string fields and a
medication list of records). -/
def toRenderData (fs : List (Str × Jv)) : RenderData where
  patientId := getStrField fs "patientId".toList
  patientName := getStrField fs "patientName".toList
  dateOfBirth := getStrField fs "dateOfBirth".toList
  patientPhone := getStrField fs "patientPhone".toList
  homePharmacy := getStrField fs "homePharmacy".toList
  pharmacyAddress := getStrField fs "pharmacyAddress".toList
  pharmacyPhone := getStrField fs "pharmacyPhone".toList
  pharmacyFax := getStrField fs "pharmacyFax".toList
  medications :=
    match assocGet fs "medications".toList with
    | some (.arr xs) => some (xs.map toMed)
    | _ => none
  allergies := getStrField fs "allergies".toList
  additionalNotes := getStrField fs "additionalNotes".toList

/-- Ceiling division, JS `Math.ceil(a / b)` for a positive divisor. -/
def ceilDiv (a b : Int) : Int := -((-a).fdiv b)

/-- What the handler knows about a thrown transport error: its `message`
and its `error` payload (absent or falsy collapses to `null` in the
response). -/
structure JsErr where
  message : Str
  details : Option Str

/-- One invocation of `resend.emails.send` (`to` is written `sendTo`). -/
structure SendCall where
  sendTo : Str
  subject : Str
  html : Str
  text : Str

/-- The inputs of one handler invocation: the request line/headers/body,
the clock, the request id, the environment's API key, the outcome
the mail transport would produce if called, and the rate-limit store. -/
structure HIn where
  method : Str
  origin : Option Str
  contentType : Option Str
  body : List (Str × Jv)
  ip : Str
  now : Int
  requestId : Str
  tsIso : Str
  apiKey : Option Str
  transport : Except JsErr Str
  store : Store

/-- The observable outcome of one handler invocation: the response status
and JSON body fields, the transport calls made, and the rate-limit store
afterwards. -/
structure HOut where
  status : Nat
  success : Option Bool
  error : Option Str
  errorDetails : Option Str
  message : Option Str
  requestId : Option Str
  retryAfter : Option Int
  remainingSubmissions : Option Int
  sends : List SendCall
  store : Store

/-- An outcome with no body fields and no sends, over the given store. -/
def baseOut (st : Store) : HOut where
  status := 0
  success := none
  error := none
  errorDetails := none
  message := none
  requestId := none
  retryAfter := none
  remainingSubmissions := none
  sends := []
  store := st

/-- The generic retry-suggesting fallback of the catch block. -/
def genericFailMsg : Str := "Failed to process submission. Please try again.".toList

/-- Embedding of `handler` (src/api/submit.js lines 362-557): the request state machine.
OPTIONS preflight; POST: origin check, rate check, content-type check,
required-field check, sanitize, config check, render, send; any other
method is rejected.  The CORS/security response headers and log lines are
not modelled; the `try/catch` materializes as the two outcomes of the
`transport` parameter, the only throwing step. -/
def handler (cfg : RLConfig) (hin : HIn) : HOut :=
  if hin.method = "OPTIONS".toList then
    { baseOut hin.store with status := 204 }
  else if hin.method = "POST".toList then
    if isAllowedOrigin hin.origin cfg.allowedOrigins = false then
      { baseOut hin.store with
        status := 403
        success := some false
        error := some "Access denied from this origin".toList }
    else
      let rl := checkRateLimit cfg hin.store hin.ip hin.now
      if rl.1.allowed = false then
        { baseOut rl.2 with
          status := 429
          success := some false
          error := some "Too many requests. Please try again later.".toList
          retryAfter := some (ceilDiv (rl.1.resetAt - hin.now) 1000) }
      else if contentTypeHasJson hin.contentType = false then
        { baseOut rl.2 with
          status := 400
          success := some false
          error := some "Invalid content type. Expected application/json".toList }
      else
        let missingFields := validateRequiredFields hin.body requiredFields
        if missingFields.isEmpty = false then
          { baseOut rl.2 with
            status := 400
            success := some false
            error := some ("Missing required fields: ".toList ++
              List.intercalate ", ".toList missingFields) }
        else
          let sanitizedData := hin.body.map (fun p => (escapeHtml p.1, sanitizeObject p.2))
          match hin.apiKey with
          | none =>
              { baseOut rl.2 with
                status := 500
                success := some false
                error := some "Server configuration error".toList }
          | some _ =>
              let call : SendCall :=
                { sendTo := cfg.emailRecipient
                  subject := "Medication Intake - ".toList ++
                    (match assocGet sanitizedData "patientName".toList with
                     | some v => if jvTruthy v then jvToStr v else "Unknown".toList
                     | none => "Unknown".toList)
                  html := generateEmailHtml hin.tsIso (toRenderData sanitizedData)
                  text := generateEmailText hin.tsIso (toRenderData sanitizedData) }
              match hin.transport with
              | .ok _ =>
                  { baseOut rl.2 with
                    status := 200
                    success := some true
                    message := some "Form submitted successfully".toList
                    requestId := some hin.requestId
                    remainingSubmissions := some rl.1.remaining
                    sends := [call] }
              | .error e =>
                  { baseOut rl.2 with
                    status := 500
                    success := some false
                    error := some (if e.message = [] then genericFailMsg else e.message)
                    errorDetails :=
                      (match e.details with
                       | some dd => if dd = [] then none else some dd
                       | none => none)
                    requestId := some hin.requestId
                    sends := [call] }
  else
    { baseOut hin.store with
      status := 405
      success := some false
      error := some "Method not allowed".toList }

def ipW : Str := "1.2.3.4".toList

def tsW : List Int := [0, 1, 2, 3, 4, 5]

def hinC5 : HIn where
  method := "POST".toList
  origin := none
  contentType := some "application/json".toList
  body := []
  ip := "1.2.3.4".toList
  now := 0
  requestId := "req_1".toList
  tsIso := "2026-01-01T00:00:00.000Z".toList
  apiKey := some "key".toList
  transport := .ok "email_1".toList
  store := emptyStore

def hinC8 : HIn where
  method := "POST".toList
  origin := some "http://localhost:3000".toList
  contentType := some "application/json".toList
  body := []
  ip := "1.2.3.4".toList
  now := 0
  requestId := "req_1".toList
  tsIso := "2026-01-01T00:00:00.000Z".toList
  apiKey := some "key".toList
  transport := .ok "email_1".toList
  store := emptyStore

def hinC10 : HIn where
  method := "POST".toList
  origin := some "http://localhost:3000".toList
  contentType := none
  body := []
  ip := "1.2.3.4".toList
  now := 0
  requestId := "req_1".toList
  tsIso := "2026-01-01T00:00:00.000Z".toList
  apiKey := some "key".toList
  transport := .ok "email_1".toList
  store := emptyStore

def bodyOk : List (Str × Jv) :=
  [("patientName".toList, .str "John Doe".toList),
   ("dateOfBirth".toList, .str "1990-01-01".toList),
   ("homePharmacy".toList, .str "Main Street Pharmacy".toList),
   ("allergies".toList, .str "Penicillin".toList)]

def errC1 : JsErr where
  message := "Connection refused".toList
  details := none

def hinC1 : HIn where
  method := "POST".toList
  origin := some "http://localhost:3000".toList
  contentType := some "application/json".toList
  body := bodyOk
  ip := "1.2.3.4".toList
  now := 0
  requestId := "req_1".toList
  tsIso := "2026-01-01T00:00:00.000Z".toList
  apiKey := some "key".toList
  transport := .error errC1
  store := emptyStore

/-! ## Theorems -/

theorem replaceChar_append (c : Char) (r a b : Str) :
    replaceChar c r (a ++ b) = replaceChar c r a ++ replaceChar c r b := by
  induction a with
  | nil => rfl
  | cons x xs ih => simp [replaceChar, ih]

theorem escapeHtml_append (a b : Str) :
    escapeHtml (a ++ b) = escapeHtml a ++ escapeHtml b := by
  simp [escapeHtml, replaceChar_append]

theorem escapeHtml_single (c : Char) : escapeHtml [c] = encodeChar c := by
  by_cases h1 : c = '&'
  · subst h1; rfl
  · by_cases h2 : c = '<'
    · subst h2; rfl
    · by_cases h3 : c = '>'
      · subst h3; rfl
      · by_cases h4 : c = '"'
        · subst h4; rfl
        · by_cases h5 : c = '\x27'
          · subst h5; rfl
          · by_cases h6 : c = '/'
            · subst h6; rfl
            · simp [escapeHtml, encodeChar, replaceChar, h1, h2, h3, h4, h5, h6]

/-- The source's sequence of six global replacements encodes each character
of the original string exactly once: it agrees with the charwise encoder. -/
theorem escapeHtml_eq_encodeStr (s : Str) : escapeHtml s = encodeStr s := by
  induction s with
  | nil => rfl
  | cons c cs ih =>
      have h : escapeHtml (c :: cs) = escapeHtml [c] ++ escapeHtml cs := by
        rw [show c :: cs = [c] ++ cs from rfl, escapeHtml_append]
      rw [h, escapeHtml_single, ih]
      simp [encodeStr]

theorem sanitizeObject_str (s : Str) :
    sanitizeObject (.str s) = .str (escapeHtml s) := by
  rw [sanitizeObject]

theorem sanitizeObject_arr (xs : List Jv) :
    sanitizeObject (.arr xs) = .arr (xs.map sanitizeObject) := by
  rw [sanitizeObject]
  simp [List.attach_map_coe]

theorem sanitizeObject_obj (fs : List (Str × Jv)) :
    sanitizeObject (.obj fs) = .obj (fs.map (fun p => (escapeHtml p.1, sanitizeObject p.2))) := by
  rw [sanitizeObject]
  congr 1
  rw [List.map_attach]
  simp

theorem sanitizeObject_num (n : Int) : sanitizeObject (.num n) = .num n := by
  rw [sanitizeObject.eq_def]

theorem sanitizeObject_bool (b : Bool) : sanitizeObject (.bool b) = .bool b := by
  rw [sanitizeObject.eq_def]

theorem sanitizeObject_null : sanitizeObject .null = .null := by
  rw [sanitizeObject.eq_def]

/-- C6: the source sanitizer realizes one spec-side sanitization pass on
every input value. -/
theorem sanitizeObject_sanRel (v : Jv) : SanRel v (sanitizeObject v) := by
  induction v using sanitizeObject.induct with
  | case1 s => rw [sanitizeObject_str, escapeHtml_eq_encodeStr]; exact SanRel.str s
  | case2 xs ih =>
      rw [sanitizeObject_arr]
      refine SanRel.arr ?_
      rw [List.forall₂_map_right_iff, List.forall₂_same]
      intro x hx
      exact ih ⟨x, hx⟩
  | case3 fs ih =>
      rw [sanitizeObject_obj]
      refine SanRel.obj ?_ ?_
      · simp [List.map_map, Function.comp_def, escapeHtml_eq_encodeStr]
      · simp only [List.map_map, Function.comp_def]
        rw [List.forall₂_map_right_iff, List.forall₂_map_left_iff, List.forall₂_same]
        intro p hp
        exact ih ⟨p, hp⟩
  | case4 v h1 h2 h3 =>
      cases v with
      | str s => exact absurd rfl (h1 s)
      | num n => rw [sanitizeObject_num]; exact SanRel.num n
      | bool b => rw [sanitizeObject_bool]; exact SanRel.bool b
      | null => rw [sanitizeObject_null]; exact SanRel.null
      | arr xs => exact absurd rfl (h2 xs)
      | obj fs => exact absurd rfl (h3 fs)

theorem encodeChar_not_special {c : Char} (h : c ∉ specialChars) :
    encodeChar c = [c] := by
  simp only [specialChars, List.mem_cons, List.not_mem_nil, or_false, not_or] at h
  obtain ⟨h1, h2, h3, h4, h5, h6⟩ := h
  simp [encodeChar, h1, h2, h3, h4, h5, h6]

theorem escapeHtml_clean {s : Str} (h : strClean s = true) : escapeHtml s = s := by
  rw [escapeHtml_eq_encodeStr]
  simp only [strClean, List.all_eq_true, Bool.not_eq_true', decide_eq_false_iff_not] at h
  induction s with
  | nil => rfl
  | cons c cs ih =>
      rw [encodeStr, List.flatMap_cons, encodeChar_not_special (h c (by simp))]
      have := ih (fun x hx => h x (by simp [hx]))
      rw [encodeStr] at this
      rw [this]
      rfl

/-- On a value free of the six special characters, the sanitizer is the
identity. -/
theorem sanitizeObject_of_noSpecial {v : Jv} (h : NoSpecial v) :
    sanitizeObject v = v := by
  induction h with
  | str hs => rw [sanitizeObject_str, escapeHtml_clean hs]
  | num n => exact sanitizeObject_num n
  | bool b => exact sanitizeObject_bool b
  | null => exact sanitizeObject_null
  | arr hxs ih =>
      rw [sanitizeObject_arr]
      congr 1
      rw [List.map_congr_left ih]
      exact List.map_id _
  | @obj fs hk hv ihv =>
      rw [sanitizeObject_obj]
      congr 1
      have : ∀ p ∈ fs, (fun p => (escapeHtml p.1, sanitizeObject p.2)) p = id p := by
        intro p hp
        simp [escapeHtml_clean (hk p hp), ihv p hp]
      rw [List.map_congr_left this, List.map_id]

theorem checkRateLimit_allowed_spec (cfg : RLConfig) (st : Store) (ip : Str) (now : Int)
    (h : ((st (hashIp ip)).filter (fun t => now - cfg.windowMs < t)).length < cfg.maxPerWindow) :
    checkRateLimit cfg st ip now =
      ({ allowed := true,
         remaining := (cfg.maxPerWindow : Int) -
           ((st (hashIp ip)).filter (fun t => now - cfg.windowMs < t)).length - 2,
         resetAt := now + cfg.windowMs },
       fun k => if k = hashIp ip
         then (st (hashIp ip)).filter (fun t => now - cfg.windowMs < t) ++ [now]
         else st k) := by
  rw [checkRateLimit]
  simp only [if_neg (not_le.mpr h)]
  refine Prod.ext ?_ rfl
  simp only [RLResult.mk.injEq, List.length_append, List.length_cons, List.length_nil,
    true_and, and_true]
  push_cast
  ring

theorem checkRateLimit_blocked_spec (cfg : RLConfig) (st : Store) (ip : Str) (now : Int)
    (h : cfg.maxPerWindow ≤ ((st (hashIp ip)).filter (fun t => now - cfg.windowMs < t)).length) :
    checkRateLimit cfg st ip now =
      ({ allowed := false, remaining := 0,
         resetAt := ((st (hashIp ip)).filter (fun t => now - cfg.windowMs < t)).headD 0
           + cfg.windowMs }, st) := by
  rw [checkRateLimit]
  simp only [if_pos h]

theorem runChecks_append (cfg : RLConfig) (ip : Str) (st : Store) (l1 l2 : List Int) :
    runChecks cfg ip st (l1 ++ l2) =
      ((runChecks cfg ip st l1).1 ++ (runChecks cfg ip (runChecks cfg ip st l1).2 l2).1,
       (runChecks cfg ip (runChecks cfg ip st l1).2 l2).2) := by
  induction l1 generalizing st with
  | nil => simp [runChecks]
  | cons t ts ih => simp [runChecks, ih]

theorem runChecks_length (cfg : RLConfig) (ip : Str) (st : Store) (ts : List Int) :
    (runChecks cfg ip st ts).1.length = ts.length := by
  induction ts generalizing st with
  | nil => rfl
  | cons t ts ih => simp [runChecks, ih]

/-- Running at most `maxPerWindow - pre` mutually in-window checks from a
store whose entry is `pre` (every element of which stays valid at every
call time) allows every call and appends the call times in order. -/
theorem runChecks_all_allowed (cfg : RLConfig) (ip : Str) :
    ∀ (ts : List Int) (st : Store) (pre : List Int),
      st (hashIp ip) = pre →
      (∀ p ∈ pre ++ ts, ∀ t ∈ ts, t - cfg.windowMs < p) →
      pre.length + ts.length ≤ cfg.maxPerWindow →
      (∀ r ∈ (runChecks cfg ip st ts).1, r.allowed = true) ∧
        (runChecks cfg ip st ts).2 (hashIp ip) = pre ++ ts := by
  intro ts
  induction ts with
  | nil => intro st pre hpre _ _; simp [runChecks, hpre]
  | cons t ts ih =>
      intro st pre hpre hvalid hcount
      have hfil : (st (hashIp ip)).filter (fun x => t - cfg.windowMs < x) = pre := by
        rw [hpre]
        apply List.filter_eq_self.mpr
        intro p hp
        simpa using hvalid p (by simp [hp]) t (by simp)
      have hlt : ((st (hashIp ip)).filter (fun x => t - cfg.windowMs < x)).length
          < cfg.maxPerWindow := by
        rw [hfil]
        simp only [List.length_cons] at hcount
        omega
      have hstep := checkRateLimit_allowed_spec cfg st ip t hlt
      have hrec := ih ((checkRateLimit cfg st ip t).2) (pre ++ [t])
        (by rw [hstep]; simp [hfil])
        (by
          intro p hp u hu
          apply hvalid p _ u (by simp [hu])
          simp only [List.append_assoc, List.mem_append, List.mem_cons] at hp ⊢
          tauto)
        (by simp only [List.length_append, List.length_cons, List.length_nil] at hcount ⊢; omega)
      constructor
      · intro r hr
        simp only [runChecks, List.mem_cons] at hr
        rcases hr with hr | hr
        · rw [hr, hstep]
        · exact hrec.1 r hr
      · show (runChecks cfg ip (checkRateLimit cfg st ip t).2 ts).2 (hashIp ip) = _
        rw [hrec.2]
        simp

/-- C4: starting from an empty store, for calls at nondecreasing times that
all lie within one window of each other, the first `maxPerWindow` checks are
allowed, the next is blocked with `resetAt` read from the oldest stored
timestamp, and a further call at or after that reset time is allowed again. -/
theorem checkRateLimit_monotone_window (cfg : RLConfig) (ip : Str) (ts : List Int)
    (hmax : 1 ≤ cfg.maxPerWindow)
    (hlen : ts.length = cfg.maxPerWindow + 1)
    (hsort : ts.Chain' (· ≤ ·))
    (hspan : ∀ a ∈ ts, ∀ b ∈ ts, a - b < cfg.windowMs) :
    (∀ N, 1 ≤ N → N ≤ cfg.maxPerWindow →
      ((runChecks cfg ip emptyStore ts).1.getD (N - 1) noRes).allowed = true) ∧
    ((runChecks cfg ip emptyStore ts).1.getD cfg.maxPerWindow noRes).allowed = false ∧
    ((runChecks cfg ip emptyStore ts).1.getD cfg.maxPerWindow noRes).resetAt
        = ts.headD 0 + cfg.windowMs ∧
    (∀ t2 : Int, ts.headD 0 + cfg.windowMs ≤ t2 →
      (checkRateLimit cfg (runChecks cfg ip emptyStore ts).2 ip t2).1.allowed = true) := by
  have hvalid_take : ∀ (k : Nat), ∀ p ∈ ([] : List Int) ++ ts.take k, ∀ t ∈ ts.take k,
      t - cfg.windowMs < p := by
    intro k p hp t ht
    simp only [List.nil_append] at hp
    have := hspan t (List.take_subset k ts ht) p (List.take_subset k ts hp)
    omega
  -- the run over the first `maxPerWindow` calls: all allowed, stores the times
  have hfront := runChecks_all_allowed cfg ip (ts.take cfg.maxPerWindow) emptyStore []
    rfl (hvalid_take cfg.maxPerWindow)
    (by simp only [List.length_take, List.length_nil, hlen]; omega)
  have hfrontlen : (runChecks cfg ip emptyStore (ts.take cfg.maxPerWindow)).1.length
      = cfg.maxPerWindow := by
    rw [runChecks_length, List.length_take, hlen]; omega
  -- the store after the first `maxPerWindow` calls
  set st1 := (runChecks cfg ip emptyStore (ts.take cfg.maxPerWindow)).2 with hst1
  -- the final blocked step
  obtain ⟨tl, hdrop⟩ : ∃ tl, ts.drop cfg.maxPerWindow = [tl] := by
    have h1 : (ts.drop cfg.maxPerWindow).length = 1 := by
      rw [List.length_drop, hlen]; omega
    cases hd : ts.drop cfg.maxPerWindow with
    | nil => rw [hd] at h1; simp at h1
    | cons x l =>
        rw [hd] at h1
        have h2 : l.length = 0 := by simpa using h1
        exact ⟨x, by rw [List.length_eq_zero.mp h2]⟩
  have htl : tl ∈ ts := by
    have hsub := List.drop_subset cfg.maxPerWindow ts
    rw [hdrop] at hsub
    exact hsub (by simp)
  have hfil1 : (st1 (hashIp ip)).filter (fun x => tl - cfg.windowMs < x)
      = ts.take cfg.maxPerWindow := by
    rw [hfront.2]
    simp only [List.nil_append]
    apply List.filter_eq_self.mpr
    intro p hp
    have := hspan tl htl p (List.take_subset _ ts hp)
    simpa using by omega
  have hblock := checkRateLimit_blocked_spec cfg st1 ip tl
    (by rw [hfil1, List.length_take, hlen]; omega)
  -- split the full run at maxPerWindow
  have hsplit : runChecks cfg ip emptyStore ts =
      ((runChecks cfg ip emptyStore (ts.take cfg.maxPerWindow)).1 ++
        (runChecks cfg ip st1 (ts.drop cfg.maxPerWindow)).1,
       (runChecks cfg ip st1 (ts.drop cfg.maxPerWindow)).2) := by
    conv_lhs => rw [show ts = ts.take cfg.maxPerWindow ++ ts.drop cfg.maxPerWindow from
      (List.take_append_drop _ ts).symm]
    rw [runChecks_append]
  have hlast : runChecks cfg ip st1 (ts.drop cfg.maxPerWindow) =
      ([(checkRateLimit cfg st1 ip tl).1], (checkRateLimit cfg st1 ip tl).2) := by
    rw [hdrop]
    simp [runChecks]
  have hhead : (ts.take cfg.maxPerWindow).headD 0 = ts.headD 0 := by
    cases ts with
    | nil => simp at hlen
    | cons a ts2 =>
        obtain ⟨m, hm⟩ : ∃ m, cfg.maxPerWindow = m + 1 := ⟨cfg.maxPerWindow - 1, by omega⟩
        rw [hm, List.take_succ_cons]
        rfl
  have hgetD : (runChecks cfg ip emptyStore ts).1.getD cfg.maxPerWindow noRes
      = (checkRateLimit cfg st1 ip tl).1 := by
    rw [hsplit, hlast]
    have hge : (runChecks cfg ip emptyStore (ts.take cfg.maxPerWindow)).1.length
        ≤ cfg.maxPerWindow := le_of_eq hfrontlen
    rw [List.getD_append_right _ _ _ _ hge, hfrontlen, Nat.sub_self, List.getD_cons_zero]
  refine ⟨?_, ?_, ?_, ?_⟩
  · -- each of the first maxPerWindow calls is allowed
    intro N h1 hN
    have hsp : runChecks cfg ip emptyStore ts =
        ((runChecks cfg ip emptyStore (ts.take N)).1 ++
          (runChecks cfg ip (runChecks cfg ip emptyStore (ts.take N)).2 (ts.drop N)).1,
         (runChecks cfg ip (runChecks cfg ip emptyStore (ts.take N)).2 (ts.drop N)).2) := by
      conv_lhs => rw [show ts = ts.take N ++ ts.drop N from (List.take_append_drop _ ts).symm]
      rw [runChecks_append]
    rw [hsp]
    have hlenN : (runChecks cfg ip emptyStore (ts.take N)).1.length = N := by
      rw [runChecks_length, List.length_take, hlen]; omega
    have hidx : N - 1 < (runChecks cfg ip emptyStore (ts.take N)).1.length := by omega
    rw [List.getD_append _ _ _ _ hidx, List.getD_eq_getElem _ _ hidx]
    have hN2 := runChecks_all_allowed cfg ip (ts.take N) emptyStore []
      rfl (hvalid_take N)
      (by simp only [List.length_take, List.length_nil, hlen]; omega)
    exact hN2.1 _ (List.getElem_mem _)
  · rw [hgetD, hblock]
  · rw [hgetD, hblock]
    show (List.filter (fun t => decide (tl - cfg.windowMs < t)) (st1 (hashIp ip))).headD 0
        + cfg.windowMs = ts.headD 0 + cfg.windowMs
    rw [show (List.filter (fun t => decide (tl - cfg.windowMs < t)) (st1 (hashIp ip)))
        = ts.take cfg.maxPerWindow from hfil1, hhead]
  · intro t2 ht2
    rw [hsplit]
    show (checkRateLimit cfg (runChecks cfg ip st1 (ts.drop cfg.maxPerWindow)).2 ip t2).1.allowed
        = true
    rw [hlast]
    show (checkRateLimit cfg (checkRateLimit cfg st1 ip tl).2 ip t2).1.allowed = true
    rw [hblock]
    show (checkRateLimit cfg st1 ip t2).1.allowed = true
    -- the stored entry is the first maxPerWindow times; its head has expired
    have hentry : st1 (hashIp ip) = ts.take cfg.maxPerWindow := by
      rw [hfront.2]; simp
    obtain ⟨a, ts2, hts⟩ : ∃ a ts2, ts = a :: ts2 := by
      cases ts with
      | nil => simp at hlen
      | cons a ts2 => exact ⟨a, ts2, rfl⟩
    obtain ⟨m, hm⟩ : ∃ m, cfg.maxPerWindow = m + 1 := ⟨cfg.maxPerWindow - 1, by omega⟩
    have htake : ts.take cfg.maxPerWindow = a :: ts2.take m := by
      rw [hts, hm, List.take_succ_cons]
    have hafail : ¬ (t2 - cfg.windowMs < a) := by
      have hh : ts.headD 0 = a := by rw [hts]; rfl
      rw [hh] at ht2
      omega
    have hflt : ((st1 (hashIp ip)).filter (fun x => t2 - cfg.windowMs < x)).length
        < cfg.maxPerWindow := by
      rw [hentry, htake, List.filter_cons_of_neg (by simpa using hafail)]
      have hle := List.length_filter_le (fun x => decide (t2 - cfg.windowMs < x)) (ts2.take m)
      have hlt : (ts2.take m).length ≤ m := by
        rw [List.length_take]; omega
      omega
    rw [checkRateLimit_allowed_spec cfg st1 ip t2 hflt]

theorem validateRequiredFields_eq_filter (data : List (Str × Jv)) (fields : List Str) :
    validateRequiredFields data fields = fields.filter (fieldMissing data) := by
  induction fields with
  | nil => rfl
  | cons f rest ih =>
      rw [validateRequiredFields, List.filter_cons]
      by_cases h : fieldMissing data f
      · simp [h, ih]
      · simp [h, ih]

theorem glue_append (vs1 vs2 ss1 ss2 : List Str) (h : vs1.length = ss1.length) :
    glue (vs1 ++ vs2) (ss1 ++ ss2) = glue vs1 ss1 ++ glue vs2 ss2 := by
  induction vs1 generalizing ss1 with
  | nil =>
      cases ss1 with
      | nil => simp [glue]
      | cons s ss => simp at h
  | cons v vs ih =>
      cases ss1 with
      | nil => simp at h
      | cons s ss =>
          have h2 : vs.length = ss.length := by simpa using h
          simp [glue, ih ss h2]

theorem glue_group (gv : List Str) (s0 : Str) (stl : List Str)
    (hg : gv.length = stl.length + 1) (p a b sa sb : Str) :
    glue (gv ++ [a, b]) ((p ++ s0) :: (stl ++ [sa, sb])) =
      p ++ (glue gv (s0 :: stl) ++ (sa ++ (a ++ (sb ++ b)))) := by
  obtain ⟨g0, gtl, rfl⟩ : ∃ g0 gtl, gv = g0 :: gtl := by
    cases gv with
    | nil => simp at hg
    | cons g0 gtl => exact ⟨g0, gtl, rfl⟩
  have h2 : gtl.length = stl.length := by simpa using hg
  rw [List.cons_append, glue, glue_append gtl [a, b] stl [sa, sb] h2]
  simp [glue, List.append_assoc]

theorem medGroupVals_ne_nil (o : Option (List Med)) : medGroupVals o ≠ [] := by
  match o with
  | some [] => simp [medGroupVals]
  | some (m :: ms) => simp [medGroupVals, medVals]
  | none => simp [medGroupVals]

theorem medsHtmlList_glue (ms : List Med) : ∀ (i : Nat) (m : Med),
    ∃ seps, seps.length = (medVals i (m :: ms)).length ∧
      medsHtmlList i (m :: ms) = glue (medVals i (m :: ms)) seps ++ medHtmlC4 := by
  induction ms with
  | nil =>
      intro i m
      refine ⟨[medHtmlC0, medHtmlC1, medHtmlC2, medHtmlC3], rfl, ?_⟩
      simp [medsHtmlList, medVals, glue, List.append_assoc]
  | cons m2 rest ih =>
      intro i m
      obtain ⟨seps2, hlen2, heq2⟩ := ih (i + 1) m2
      obtain ⟨s0, stl, rfl⟩ : ∃ s0 stl, seps2 = s0 :: stl := by
        cases seps2 with
        | nil => rw [medVals] at hlen2; simp at hlen2
        | cons s0 stl => exact ⟨s0, stl, rfl⟩
      refine ⟨[medHtmlC0, medHtmlC1, medHtmlC2, medHtmlC3] ++ (medHtmlC4 ++ s0) :: stl,
        ?_, ?_⟩
      · simp only [medVals, List.length_append, List.length_cons, List.length_nil] at hlen2 ⊢
        omega
      · rw [show medsHtmlList i (m :: m2 :: rest) =
            medHtmlC0 ++ natToDec (i + 1) ++ medHtmlC1 ++ orElseStr m.name NA ++ medHtmlC2 ++
              orElseStr m.dosage NA ++ medHtmlC3 ++ orElseStr m.frequency NA ++ medHtmlC4 ++
              medsHtmlList (i + 1) (m2 :: rest) from rfl]
        rw [heq2]
        rw [show medVals i (m :: m2 :: rest) =
            [natToDec (i + 1), orElseStr m.name NA, orElseStr m.dosage NA,
              orElseStr m.frequency NA] ++ medVals (i + 1) (m2 :: rest) from rfl]
        rw [show ([medHtmlC0, medHtmlC1, medHtmlC2, medHtmlC3] ++ (medHtmlC4 ++ s0) :: stl :
              List Str) =
            [medHtmlC0, medHtmlC1, medHtmlC2, medHtmlC3] ++ ((medHtmlC4 ++ s0) :: stl) from rfl]
        rw [glue_append _ _ _ _ (by rfl)]
        have hcons : ∃ g0 gtl, medVals (i + 1) (m2 :: rest) = g0 :: gtl :=
          ⟨_, _, rfl⟩
        obtain ⟨g0, gtl, hgv⟩ := hcons
        rw [hgv]
        simp [glue, List.append_assoc]

theorem medsTextList_glue (ms : List Med) : ∀ (i : Nat) (m : Med),
    ∃ seps, seps.length = (medVals i (m :: ms)).length ∧
      medsTextList i (m :: ms) = glue (medVals i (m :: ms)) seps ++ medTextC4 := by
  induction ms with
  | nil =>
      intro i m
      refine ⟨[medTextC0, medTextC1, medTextC2, medTextC3], rfl, ?_⟩
      simp [medsTextList, medVals, glue, List.append_assoc]
  | cons m2 rest ih =>
      intro i m
      obtain ⟨seps2, hlen2, heq2⟩ := ih (i + 1) m2
      obtain ⟨s0, stl, rfl⟩ : ∃ s0 stl, seps2 = s0 :: stl := by
        cases seps2 with
        | nil => rw [medVals] at hlen2; simp at hlen2
        | cons s0 stl => exact ⟨s0, stl, rfl⟩
      refine ⟨[medTextC0, medTextC1, medTextC2, medTextC3] ++
        (medTextC4 ++ ['\n'] ++ s0) :: stl, ?_, ?_⟩
      · simp only [medVals, List.length_append, List.length_cons, List.length_nil] at hlen2 ⊢
        omega
      · rw [show medsTextList i (m :: m2 :: rest) =
            medTextC0 ++ natToDec (i + 1) ++ medTextC1 ++ orElseStr m.name NA ++ medTextC2 ++
              orElseStr m.dosage NA ++ medTextC3 ++ orElseStr m.frequency NA ++ medTextC4 ++
              ['\n'] ++ medsTextList (i + 1) (m2 :: rest) from rfl]
        rw [heq2]
        rw [show medVals i (m :: m2 :: rest) =
            [natToDec (i + 1), orElseStr m.name NA, orElseStr m.dosage NA,
              orElseStr m.frequency NA] ++ medVals (i + 1) (m2 :: rest) from rfl]
        rw [show ([medTextC0, medTextC1, medTextC2, medTextC3] ++
              (medTextC4 ++ ['\n'] ++ s0) :: stl : List Str) =
            [medTextC0, medTextC1, medTextC2, medTextC3] ++
              ((medTextC4 ++ ['\n'] ++ s0) :: stl) from rfl]
        rw [glue_append _ _ _ _ (by rfl)]
        obtain ⟨g0, gtl, hgv⟩ : ∃ g0 gtl, medVals (i + 1) (m2 :: rest) = g0 :: gtl :=
          ⟨_, _, rfl⟩
        rw [hgv]
        simp [glue, List.append_assoc]

/-- The markup medication section presents the group values with some
leading separator and a fixed trailing chunk. -/
theorem medicationsListHtml_glue (o : Option (List Med)) :
    ∃ seps tl, seps.length = (medGroupVals o).length ∧
      medicationsListHtml o = glue (medGroupVals o) seps ++ tl := by
  match o with
  | some [] =>
      exact ⟨[noMedsHtmlPre], noMedsHtmlPost, rfl, by
        simp [medicationsListHtml, medGroupVals, glue, List.append_assoc]⟩
  | some (m :: ms) =>
      obtain ⟨seps, hlen, heq⟩ := medsHtmlList_glue ms 0 m
      exact ⟨seps, medHtmlC4, hlen, heq⟩
  | none =>
      exact ⟨[noMedsHtmlPre], noMedsHtmlPost, rfl, by
        simp [medicationsListHtml, medGroupVals, glue, List.append_assoc]⟩

/-- The plain-text medication section, likewise. -/
theorem medicationsListText_glue (o : Option (List Med)) :
    ∃ seps tl, seps.length = (medGroupVals o).length ∧
      medicationsListText o = glue (medGroupVals o) seps ++ tl := by
  match o with
  | some [] =>
      exact ⟨[[]], [], rfl, by simp [medicationsListText, medGroupVals, glue]⟩
  | some (m :: ms) =>
      obtain ⟨seps, hlen, heq⟩ := medsTextList_glue ms 0 m
      exact ⟨seps, medTextC4, hlen, heq⟩
  | none =>
      exact ⟨[[]], [], rfl, by simp [medicationsListText, medGroupVals, glue]⟩

/-- C9: the markup and plain-text renderings both present exactly the same
informational value sequence — same field values, same order, same
placeholders, same index-labelled medication entries or single no-entries
line — each interleaved with its own fixed presentation text. -/
theorem renderers_present_same_values (ts : Str) (d : RenderData) :
    EmbedsSeq (renderVals ts d) (generateEmailHtml ts d) ∧
    EmbedsSeq (renderVals ts d) (generateEmailText ts d) := by
  constructor
  · obtain ⟨mseps, mtl, hmlen, hmeq⟩ := medicationsListHtml_glue d.medications
    obtain ⟨s0, stl, rfl⟩ : ∃ s0 stl, mseps = s0 :: stl := by
      cases mseps with
      | nil =>
          exfalso
          have h0 : (medGroupVals d.medications).length = 0 := by simpa using hmlen.symm
          exact medGroupVals_ne_nil d.medications (List.length_eq_zero.mp h0)
      | cons s0 stl => exact ⟨s0, stl, rfl⟩
    have hg : (medGroupVals d.medications).length = stl.length + 1 := by
      simpa using hmlen.symm
    refine ⟨htmlC0 :: htmlC1 :: htmlC2 :: htmlC3 :: htmlC4 :: htmlC5 :: htmlC6 :: htmlC7 ::
      htmlC8 :: htmlC9 :: (htmlC10 ++ s0) :: (stl ++ [mtl ++ htmlC11, htmlC12]), htmlC13,
      ?_, ?_⟩
    · simp [renderVals, hg]
    · rw [renderVals]
      simp only [glue]
      rw [glue_group (medGroupVals d.medications) s0 stl hg]
      rw [generateEmailHtml, hmeq]
      simp [List.append_assoc]
  · obtain ⟨mseps, mtl, hmlen, hmeq⟩ := medicationsListText_glue d.medications
    obtain ⟨s0, stl, rfl⟩ : ∃ s0 stl, mseps = s0 :: stl := by
      cases mseps with
      | nil =>
          exfalso
          have h0 : (medGroupVals d.medications).length = 0 := by simpa using hmlen.symm
          exact medGroupVals_ne_nil d.medications (List.length_eq_zero.mp h0)
      | cons s0 stl => exact ⟨s0, stl, rfl⟩
    have hg : (medGroupVals d.medications).length = stl.length + 1 := by
      simpa using hmlen.symm
    refine ⟨textC0 :: textC1 :: textC2 :: textC3 :: textC4 :: textC5 :: textC6 :: textC7 ::
      textC8 :: textC9 :: (textC10 ++ s0) :: (stl ++ [mtl ++ textC11, textC12]), textC13,
      ?_, ?_⟩
    · simp [renderVals, hg]
    · rw [renderVals]
      simp only [glue]
      rw [glue_group (medGroupVals d.medications) s0 stl hg]
      rw [generateEmailText, hmeq]
      simp [List.append_assoc]

theorem jvToStr_str (s : Str) : jvToStr (.str s) = s := by rw [jvToStr]

/-- C5: a POST whose declared origin is missing or not allow-listed is
answered with a 403 client error carrying the generic denial message, and
the mail transport is never invoked. -/
theorem c5_unlisted_origin_no_delivery (cfg : RLConfig) (hin : HIn)
    (hm : hin.method = "POST".toList)
    (ho : isAllowedOrigin hin.origin cfg.allowedOrigins = false) :
    (handler cfg hin).status = 403 ∧ (handler cfg hin).sends = [] ∧
    (handler cfg hin).error = some "Access denied from this origin".toList := by
  have hne : ¬ (("POST".toList : Str) = "OPTIONS".toList) := by decide
  simp [handler, hm, hne, ho, baseOut]

/-- C8: a routed POST (allowed origin, rate allowed, JSON content type)
with required fields missing or empty is answered with a 400 whose error
message names, in order, exactly the required fields that fail the
missing-or-empty test — and a required field that passes is never named. -/
theorem c8_missing_fields_exact (cfg : RLConfig) (hin : HIn)
    (hm : hin.method = "POST".toList)
    (ho : isAllowedOrigin hin.origin cfg.allowedOrigins = true)
    (hr : ((hin.store (hashIp hin.ip)).filter
        (fun t => hin.now - cfg.windowMs < t)).length < cfg.maxPerWindow)
    (hct : contentTypeHasJson hin.contentType = true)
    (hmiss : validateRequiredFields hin.body requiredFields ≠ []) :
    (handler cfg hin).status = 400 ∧
    (handler cfg hin).error = some ("Missing required fields: ".toList ++
      List.intercalate ", ".toList (validateRequiredFields hin.body requiredFields)) ∧
    validateRequiredFields hin.body requiredFields
      = requiredFields.filter (fieldMissing hin.body) ∧
    (∀ f ∈ requiredFields, fieldMissing hin.body f = false →
      f ∉ validateRequiredFields hin.body requiredFields) ∧
    (∀ f ∈ validateRequiredFields hin.body requiredFields,
      f ∈ requiredFields ∧ fieldMissing hin.body f = true) := by
  have hne : ¬ (("POST".toList : Str) = "OPTIONS".toList) := by decide
  have hstep := checkRateLimit_allowed_spec cfg hin.store hin.ip hin.now hr
  have hempty : (validateRequiredFields hin.body requiredFields).isEmpty = false := by
    cases h : validateRequiredFields hin.body requiredFields with
    | nil => exact absurd h hmiss
    | cons a l => rfl
  refine ⟨?_, ?_, ?_, ?_, ?_⟩
  · simp [handler, hm, hne, ho, hstep, hct, hempty]
  · simp [handler, hm, hne, ho, hstep, hct, hempty]
  · exact validateRequiredFields_eq_filter hin.body requiredFields
  · intro f hf hnot
    rw [validateRequiredFields_eq_filter, List.mem_filter]
    rintro ⟨-, hbad⟩
    rw [hnot] at hbad
    exact Bool.false_ne_true hbad
  · intro f hf
    rw [validateRequiredFields_eq_filter, List.mem_filter] at hf
    exact hf

/-- C10: a POST from an allowed origin that passes the rate check consumes
quota even when it is then rejected for a wrong content type or for
missing required fields: the check appended `now` to the identifier's
entry before those validations ran, and the 400 response leaves the
appended timestamp in the store. -/
theorem c10_quota_consumed_on_reject (cfg : RLConfig) (hin : HIn)
    (hm : hin.method = "POST".toList)
    (ho : isAllowedOrigin hin.origin cfg.allowedOrigins = true)
    (hr : ((hin.store (hashIp hin.ip)).filter
        (fun t => hin.now - cfg.windowMs < t)).length < cfg.maxPerWindow)
    (hbad : contentTypeHasJson hin.contentType = false ∨
      validateRequiredFields hin.body requiredFields ≠ []) :
    (handler cfg hin).status = 400 ∧
    (handler cfg hin).store (hashIp hin.ip)
      = (hin.store (hashIp hin.ip)).filter (fun t => hin.now - cfg.windowMs < t)
        ++ [hin.now] := by
  have hne : ¬ (("POST".toList : Str) = "OPTIONS".toList) := by decide
  have hstep := checkRateLimit_allowed_spec cfg hin.store hin.ip hin.now hr
  by_cases hct : contentTypeHasJson hin.contentType = false
  · constructor
    · simp [handler, hm, hne, ho, hstep, hct]
    · simp [handler, hm, hne, ho, hstep, hct, baseOut]
  · have hct2 : contentTypeHasJson hin.contentType = true := by
      cases h : contentTypeHasJson hin.contentType with
      | false => exact absurd h hct
      | true => rfl
    have hmiss : validateRequiredFields hin.body requiredFields ≠ [] := by
      rcases hbad with h | h
      · exact absurd h hct
      · exact h
    have hempty : (validateRequiredFields hin.body requiredFields).isEmpty = false := by
      cases h : validateRequiredFields hin.body requiredFields with
      | nil => exact absurd h hmiss
      | cons a l => rfl
    constructor
    · simp [handler, hm, hne, ho, hstep, hct2, hempty]
    · simp [handler, hm, hne, ho, hstep, hct2, hempty, baseOut]

/-- C1 (amended): when the delivery step's transport call throws, the
handler answers 500 and the response's error field carries the thrown
exception's own message whenever that message is non-empty; the generic
retry-suggesting message is used only as a fallback for an empty message.
The exception's `error` payload is likewise passed through when truthy,
and the transport was called exactly once. -/
theorem c1_delivery_error_response (cfg : RLConfig) (hin : HIn) (e : JsErr) (k : Str)
    (hm : hin.method = "POST".toList)
    (ho : isAllowedOrigin hin.origin cfg.allowedOrigins = true)
    (hr : ((hin.store (hashIp hin.ip)).filter
        (fun t => hin.now - cfg.windowMs < t)).length < cfg.maxPerWindow)
    (hct : contentTypeHasJson hin.contentType = true)
    (hmiss : validateRequiredFields hin.body requiredFields = [])
    (hkey : hin.apiKey = some k)
    (htr : hin.transport = .error e) :
    (handler cfg hin).status = 500 ∧
    (handler cfg hin).error
      = some (if e.message = [] then genericFailMsg else e.message) ∧
    (handler cfg hin).errorDetails
      = (match e.details with
         | some dd => if dd = [] then none else some dd
         | none => none) ∧
    (handler cfg hin).sends.length = 1 := by
  have hne : ¬ (("POST".toList : Str) = "OPTIONS".toList) := by decide
  have hstep := checkRateLimit_allowed_spec cfg hin.store hin.ip hin.now hr
  have hempty : (validateRequiredFields hin.body requiredFields).isEmpty = true := by
    rw [hmiss]; rfl
  refine ⟨?_, ?_, ?_, ?_⟩ <;>
    simp [handler, hm, hne, ho, hstep, hct, hempty, hkey, htr]

/-- C7 (amended): an allowed rate-limit check appends `now` to the
identifier's entry, and — because the source computes
`RATE_LIMIT_MAX - validEntries.length - 1` after the append — returns
`remaining = maxPerWindow - count - 2`, where `count` is the number of
in-window entries before the append; in particular the first allowed call
in an empty window returns `maxPerWindow - 2`. -/
theorem c7_allowed_check_appends_and_remaining (cfg : RLConfig) (st : Store) (ip : Str)
    (now : Int)
    (h : ((st (hashIp ip)).filter (fun t => now - cfg.windowMs < t)).length
      < cfg.maxPerWindow) :
    (checkRateLimit cfg st ip now).1.allowed = true ∧
    (checkRateLimit cfg st ip now).1.remaining
      = (cfg.maxPerWindow : Int)
        - ((st (hashIp ip)).filter (fun t => now - cfg.windowMs < t)).length - 2 ∧
    (checkRateLimit cfg st ip now).2 (hashIp ip)
      = (st (hashIp ip)).filter (fun t => now - cfg.windowMs < t) ++ [now] := by
  rw [checkRateLimit_allowed_spec cfg st ip now h]
  simp

/-- Witness for C7 at a concrete input: the first call for a fresh
identifier under the default configuration. -/
theorem c7_allowed_check_appends_and_remaining_witness :
    ((emptyStore (hashIp "1.2.3.4".toList)).filter
        (fun t => (0 : Int) - CONFIG.windowMs < t)).length < CONFIG.maxPerWindow ∧
    ((checkRateLimit CONFIG emptyStore "1.2.3.4".toList 0).1.allowed = true ∧
     (checkRateLimit CONFIG emptyStore "1.2.3.4".toList 0).1.remaining
       = (CONFIG.maxPerWindow : Int)
         - ((emptyStore (hashIp "1.2.3.4".toList)).filter
             (fun t => (0 : Int) - CONFIG.windowMs < t)).length - 2 ∧
     (checkRateLimit CONFIG emptyStore "1.2.3.4".toList 0).2 (hashIp "1.2.3.4".toList)
       = (emptyStore (hashIp "1.2.3.4".toList)).filter
           (fun t => (0 : Int) - CONFIG.windowMs < t) ++ [(0 : Int)]) :=
  ⟨by decide,
   c7_allowed_check_appends_and_remaining CONFIG emptyStore "1.2.3.4".toList 0 (by decide)⟩

/-- C7 counterexample: the first allowed call in an empty window returns
`remaining = 3` under the default configuration (`maxPerWindow = 5`), not
`maxPerWindow - count - 1 = 4` as claimed. -/
theorem c7_counterexample :
    (checkRateLimit CONFIG emptyStore "1.2.3.4".toList 0).1.allowed = true ∧
    (checkRateLimit CONFIG emptyStore "1.2.3.4".toList 0).1.remaining = 3 ∧
    ¬ ((checkRateLimit CONFIG emptyStore "1.2.3.4".toList 0).1.remaining
        = (CONFIG.maxPerWindow : Int) - 0 - 1) := by
  decide

/-- C2 (amended): sanitization is idempotent precisely in the absence of
the six special characters: on any value whose string leaves and keys are
free of them the sanitizer is the identity, hence re-sanitizing changes
nothing; on any other value re-sanitizing double-encodes the ampersand of
each introduced entity (see the counterexample). -/
theorem c2_sanitize_idempotent_on_clean (v : Jv) (h : NoSpecial v) :
    sanitizeObject (sanitizeObject v) = sanitizeObject v := by
  rw [sanitizeObject_of_noSpecial h, sanitizeObject_of_noSpecial h]

/-- Witness for C2 at a concrete input: a clean string value. -/
theorem c2_sanitize_idempotent_on_clean_witness :
    NoSpecial (Jv.str "hello".toList) ∧
    sanitizeObject (sanitizeObject (Jv.str "hello".toList))
      = sanitizeObject (Jv.str "hello".toList) :=
  ⟨NoSpecial.str (by decide),
   c2_sanitize_idempotent_on_clean (Jv.str "hello".toList) (NoSpecial.str (by decide))⟩

/-- C2 counterexample: sanitizing `"&"` once yields `"&amp;"`, sanitizing
it twice yields `"&amp;amp;"` — the composition differs from a single
pass, so `sanitize ∘ sanitize ≠ sanitize`. -/
theorem c2_counterexample :
    sanitizeObject (Jv.str ['&']) = Jv.str "&amp;".toList ∧
    sanitizeObject (sanitizeObject (Jv.str ['&'])) = Jv.str "&amp;amp;".toList ∧
    sanitizeObject (sanitizeObject (Jv.str ['&'])) ≠ sanitizeObject (Jv.str ['&']) := by
  have h1 : escapeHtml ['&'] = "&amp;".toList := by decide
  have h2 : escapeHtml "&amp;".toList = "&amp;amp;".toList := by decide
  refine ⟨?_, ?_, ?_⟩
  · rw [sanitizeObject_str, h1]
  · rw [sanitizeObject_str, h1, sanitizeObject_str, h2]
  · rw [sanitizeObject_str, h1, sanitizeObject_str, h2]
    simp only [ne_eq, Jv.str.injEq]
    decide

/-- C3: the allow-list wildcard matching is an unanchored regular
expression search.  On the claim's three examples code and claim agree:
`https://*.example.com` accepts `https://a.example.com` and rejects
`https://example.com` and `https://a.evil.com.attacker.net`.  But because
the regex is anchored at neither end, the code also accepts
`https://a.example.com.evil.net`, which the claimed anchored literal
matching (`specOriginAllowed`, modelled from the spec) rejects — an
attacker-controlled origin passes the CORS check. -/
theorem c3_wildcard_matching_unanchored :
    isAllowedOrigin (some "https://a.example.com".toList)
      ["https://*.example.com".toList] = true ∧
    isAllowedOrigin (some "https://example.com".toList)
      ["https://*.example.com".toList] = false ∧
    isAllowedOrigin (some "https://a.evil.com.attacker.net".toList)
      ["https://*.example.com".toList] = false ∧
    isAllowedOrigin (some "https://a.example.com.evil.net".toList)
      ["https://*.example.com".toList] = true ∧
    specOriginAllowed (some "https://a.example.com.evil.net".toList)
      ["https://*.example.com".toList] = false := by
  decide

/-- Witness for C4: the default configuration (`maxPerWindow = 5`), six
calls at times 0..5, and a later call at the reset time. -/
theorem checkRateLimit_monotone_window_witness :
    (1 ≤ CONFIG.maxPerWindow ∧ tsW.length = CONFIG.maxPerWindow + 1 ∧
      tsW.Chain' (· ≤ ·) ∧ (∀ a ∈ tsW, ∀ b ∈ tsW, a - b < CONFIG.windowMs)) ∧
    ((∀ N, 1 ≤ N → N ≤ CONFIG.maxPerWindow →
        ((runChecks CONFIG ipW emptyStore tsW).1.getD (N - 1) noRes).allowed = true) ∧
      ((runChecks CONFIG ipW emptyStore tsW).1.getD CONFIG.maxPerWindow noRes).allowed
        = false ∧
      ((runChecks CONFIG ipW emptyStore tsW).1.getD CONFIG.maxPerWindow noRes).resetAt
        = tsW.headD 0 + CONFIG.windowMs ∧
      (∀ t2 : Int, tsW.headD 0 + CONFIG.windowMs ≤ t2 →
        (checkRateLimit CONFIG (runChecks CONFIG ipW emptyStore tsW).2 ipW t2).1.allowed
          = true)) :=
  ⟨⟨by decide, by decide, by simp [tsW, List.chain'_cons], by decide⟩,
   checkRateLimit_monotone_window CONFIG ipW tsW (by decide) (by decide)
     (by simp [tsW, List.chain'_cons]) (by decide)⟩

/-- Witness for C5: a POST with no Origin header. -/
theorem c5_unlisted_origin_no_delivery_witness :
    (hinC5.method = "POST".toList ∧
      isAllowedOrigin hinC5.origin CONFIG.allowedOrigins = false) ∧
    ((handler CONFIG hinC5).status = 403 ∧ (handler CONFIG hinC5).sends = [] ∧
      (handler CONFIG hinC5).error = some "Access denied from this origin".toList) :=
  ⟨⟨rfl, rfl⟩, c5_unlisted_origin_no_delivery CONFIG hinC5 rfl rfl⟩

/-- Witness for C8: an empty body; all four required fields are missing. -/
theorem c8_missing_fields_exact_witness :
    (hinC8.method = "POST".toList ∧
      isAllowedOrigin hinC8.origin CONFIG.allowedOrigins = true ∧
      ((hinC8.store (hashIp hinC8.ip)).filter
        (fun t => hinC8.now - CONFIG.windowMs < t)).length < CONFIG.maxPerWindow ∧
      contentTypeHasJson hinC8.contentType = true ∧
      validateRequiredFields hinC8.body requiredFields ≠ []) ∧
    ((handler CONFIG hinC8).status = 400 ∧
      (handler CONFIG hinC8).error = some ("Missing required fields: ".toList ++
        List.intercalate ", ".toList (validateRequiredFields hinC8.body requiredFields)) ∧
      validateRequiredFields hinC8.body requiredFields
        = requiredFields.filter (fieldMissing hinC8.body) ∧
      (∀ f ∈ requiredFields, fieldMissing hinC8.body f = false →
        f ∉ validateRequiredFields hinC8.body requiredFields) ∧
      (∀ f ∈ validateRequiredFields hinC8.body requiredFields,
        f ∈ requiredFields ∧ fieldMissing hinC8.body f = true)) :=
  ⟨⟨rfl, by decide, by decide, by decide, by decide⟩,
   c8_missing_fields_exact CONFIG hinC8 rfl (by decide) (by decide) (by decide) (by decide)⟩

/-- Witness for C10: a POST with no content type; the 400 response leaves
the appended timestamp in the store. -/
theorem c10_quota_consumed_on_reject_witness :
    (hinC10.method = "POST".toList ∧
      isAllowedOrigin hinC10.origin CONFIG.allowedOrigins = true ∧
      ((hinC10.store (hashIp hinC10.ip)).filter
        (fun t => hinC10.now - CONFIG.windowMs < t)).length < CONFIG.maxPerWindow ∧
      (contentTypeHasJson hinC10.contentType = false ∨
        validateRequiredFields hinC10.body requiredFields ≠ [])) ∧
    ((handler CONFIG hinC10).status = 400 ∧
      (handler CONFIG hinC10).store (hashIp hinC10.ip)
        = (hinC10.store (hashIp hinC10.ip)).filter
            (fun t => hinC10.now - CONFIG.windowMs < t) ++ [hinC10.now]) :=
  ⟨⟨rfl, by decide, by decide, Or.inl rfl⟩,
   c10_quota_consumed_on_reject CONFIG hinC10 rfl (by decide) (by decide) (Or.inl rfl)⟩

theorem bodyOk_no_missing : validateRequiredFields bodyOk requiredFields = [] := by
  have e1 : assocGet bodyOk "patientName".toList
      = some (.str "John Doe".toList) := rfl
  have e2 : assocGet bodyOk "dateOfBirth".toList
      = some (.str "1990-01-01".toList) := rfl
  have e3 : assocGet bodyOk "homePharmacy".toList
      = some (.str "Main Street Pharmacy".toList) := rfl
  have e4 : assocGet bodyOk "allergies".toList
      = some (.str "Penicillin".toList) := rfl
  have f1 : fieldMissing bodyOk "patientName".toList = false := by
    simp only [fieldMissing, e1, jvToStr_str, jvTruthy]
    decide
  have f2 : fieldMissing bodyOk "dateOfBirth".toList = false := by
    simp only [fieldMissing, e2, jvToStr_str, jvTruthy]
    decide
  have f3 : fieldMissing bodyOk "homePharmacy".toList = false := by
    simp only [fieldMissing, e3, jvToStr_str, jvTruthy]
    decide
  have f4 : fieldMissing bodyOk "allergies".toList = false := by
    simp only [fieldMissing, e4, jvToStr_str, jvTruthy]
    decide
  rw [validateRequiredFields_eq_filter, requiredFields,
    List.filter_cons_of_neg (by rw [f1]; exact Bool.false_ne_true),
    List.filter_cons_of_neg (by rw [f2]; exact Bool.false_ne_true),
    List.filter_cons_of_neg (by rw [f3]; exact Bool.false_ne_true),
    List.filter_cons_of_neg (by rw [f4]; exact Bool.false_ne_true)]
  rfl

/-- Witness for C1 (amended) at a concrete input: a fully valid submission
whose transport call throws `Connection refused`. -/
theorem c1_delivery_error_response_witness :
    (hinC1.method = "POST".toList ∧
      isAllowedOrigin hinC1.origin CONFIG.allowedOrigins = true ∧
      ((hinC1.store (hashIp hinC1.ip)).filter
        (fun t => hinC1.now - CONFIG.windowMs < t)).length < CONFIG.maxPerWindow ∧
      contentTypeHasJson hinC1.contentType = true ∧
      validateRequiredFields hinC1.body requiredFields = [] ∧
      hinC1.apiKey = some "key".toList ∧
      hinC1.transport = .error errC1) ∧
    ((handler CONFIG hinC1).status = 500 ∧
      (handler CONFIG hinC1).error
        = some (if errC1.message = [] then genericFailMsg else errC1.message) ∧
      (handler CONFIG hinC1).errorDetails
        = (match errC1.details with
           | some dd => if dd = [] then none else some dd
           | none => none) ∧
      (handler CONFIG hinC1).sends.length = 1) :=
  ⟨⟨rfl, by decide, by decide, by decide, bodyOk_no_missing, rfl, rfl⟩,
   c1_delivery_error_response CONFIG hinC1 errC1 "key".toList rfl (by decide) (by decide)
     (by decide) bodyOk_no_missing rfl rfl⟩

/-- C1 counterexample: on that same input the response body's error field
is the exception's own message, `Connection refused`, not the generic
retry-suggesting message — refuting the claim that the caller receives a
generic message with the exception's details withheld. -/
theorem c1_counterexample :
    (handler CONFIG hinC1).status = 500 ∧
    (handler CONFIG hinC1).error = some "Connection refused".toList ∧
    (handler CONFIG hinC1).error ≠ some genericFailMsg := by
  have hne : ¬ (("POST".toList : Str) = "OPTIONS".toList) := by decide
  have hm : hinC1.method = "POST".toList := rfl
  have ho : isAllowedOrigin hinC1.origin CONFIG.allowedOrigins = true := by decide
  have hr : ((hinC1.store (hashIp hinC1.ip)).filter
      (fun t => hinC1.now - CONFIG.windowMs < t)).length < CONFIG.maxPerWindow := by decide
  have hstep := checkRateLimit_allowed_spec CONFIG hinC1.store hinC1.ip hinC1.now hr
  have hct : contentTypeHasJson hinC1.contentType = true := by decide
  have hempty : (validateRequiredFields hinC1.body requiredFields).isEmpty = true := by
    rw [show hinC1.body = bodyOk from rfl, bodyOk_no_missing]
    rfl
  have hkey : hinC1.apiKey = some "key".toList := rfl
  have htr : hinC1.transport = .error errC1 := rfl
  have hmsg : ¬ (errC1.message = ([] : Str)) := by decide
  refine ⟨?_, ?_, ?_⟩
  · simp [handler, hm, hne, ho, hstep, hct, hempty, hkey, htr]
  · simp only [handler, hm, hne, ho, hstep, hct, hempty, hkey, htr]
    simp [hmsg, errC1]
  · simp only [handler, hm, hne, ho, hstep, hct, hempty, hkey, htr]
    simp [hmsg, errC1, genericFailMsg]
